import Mathlib

/-!
Verification development for the weekly-report generator in
`skimage_weekly_update.py` (scikit-image boilerplate-utils).

The categorizer `Categories.from_report_range` consumes a feed of tracked
items (issues and pull requests) ordered by `updated_at` and sorts them into
seven buckets relative to a half-open report window `[start, stop)`.  We embed
the items, the `Categories` dataclass, the categorization loop (including its
early `break`), the delta arithmetic of `main`, and the display ordering of
`print_list`, and prove the behavioural properties of interest.

Timestamps are modelled as integers (`Int`); nullable timestamps as
`Option Int`.  The feed, produced in the script by
`repo.get_issues(state="all", sort="updated", direction="asc", since=start)`,
is modelled as an explicit `List Item` parameter.
-/

/-- One issue or pull request snapshot, with the fields the script reads.
`state` is the literal state string (`"open"` or `"closed"`), as the script
compares `item.state == "closed"`.  `is_pr` models
`item.pull_request is not None`; for pull requests,
`merged_at.isSome` models `item.as_pull_request().is_merged()` (a pull
request is merged exactly when its `merged_at` timestamp is set). -/
structure Item where
  number : Nat
  title : String
  url : String
  state : String
  created_at : Option Int
  updated_at : Option Int
  closed_at : Option Int
  merged_at : Option Int
  is_pr : Bool
  comments : Nat
  review_comments : Nat
deriving DecidableEq, Repr

/-- The `Categories` dataclass: seven buckets, each a list that the loop
appends to in feed order. -/
structure Categories where
  new_open_issues : List Item := []
  closed_issues : List Item := []
  other_active_issues : List Item := []
  new_open_prs : List Item := []
  merged_prs : List Item := []
  closed_prs : List Item := []
  other_active_prs : List Item := []
deriving DecidableEq, Repr

/-- The fresh `Categories()` instance the classmethod starts from. -/
def emptyCategories : Categories := {}

/-- The nested helper `in_report_range(date)` of `from_report_range`:
`None` dates are out of range, otherwise membership in `[start, stop)`. -/
def in_report_range (start stop : Int) : Option Int → Bool
  | none => false
  | some date => decide (start ≤ date ∧ date < stop)

/-- The loop body of `from_report_range` (lines 144-165): compute the
per-item predicates and append the item to exactly the bucket the
`if`/`elif` chain selects. -/
def categorizeItem (start stop : Int) (item : Item) (c : Categories) : Categories :=
  let new_in_range := in_report_range start stop item.created_at
  let closed_in_range :=
    in_report_range start stop item.closed_at && (item.state == "closed")
  let is_pr := item.is_pr
  let is_merged_pr := if is_pr then item.merged_at.isSome else false
  if is_pr then
    if closed_in_range then
      if is_merged_pr then
        { c with merged_prs := c.merged_prs ++ [item] }
      else
        { c with closed_prs := c.closed_prs ++ [item] }
    else if new_in_range then
      { c with new_open_prs := c.new_open_prs ++ [item] }
    else
      { c with other_active_prs := c.other_active_prs ++ [item] }
  else
    if closed_in_range then
      { c with closed_issues := c.closed_issues ++ [item] }
    else if new_in_range then
      { c with new_open_issues := c.new_open_issues ++ [item] }
    else
      { c with other_active_issues := c.other_active_issues ++ [item] }

/-- The `for item in ...` loop of `from_report_range` with its early `break`:
the first item whose `updated_at` fails `in_report_range` stops consumption
and everything accumulated so far is returned. -/
def from_report_range_loop (start stop : Int) : List Item → Categories → Categories
  | [], c => c
  | item :: rest, c =>
    if in_report_range start stop item.updated_at then
      from_report_range_loop start stop rest (categorizeItem start stop item c)
    else c

/-- The classmethod `Categories.from_report_range`, with the paginated GitHub
feed abstracted into the list `feed`. -/
def from_report_range (start stop : Int) (feed : List Item) : Categories :=
  from_report_range_loop start stop feed emptyCategories

/-- Number of items pulled from the feed iterator before the loop ends: the
item that triggers the `break` is itself pulled, items after it are not. -/
def consumedCount (start stop : Int) : List Item → Nat
  | [] => 0
  | item :: rest =>
    if in_report_range start stop item.updated_at then
      consumedCount start stop rest + 1
    else 1

/-- The prefix of the feed that the loop actually categorizes (everything
strictly before the `break`). -/
def processed (start stop : Int) (feed : List Item) : List Item :=
  feed.takeWhile (fun item => in_report_range start stop item.updated_at)

/-- Names for the seven buckets of `Categories`. -/
inductive BucketId where
  | new_open_issues
  | closed_issues
  | other_active_issues
  | new_open_prs
  | merged_prs
  | closed_prs
  | other_active_prs
deriving DecidableEq, Repr

/-- Project one bucket out of a `Categories` value. -/
def bucketOf (b : BucketId) (c : Categories) : List Item :=
  match b with
  | .new_open_issues => c.new_open_issues
  | .closed_issues => c.closed_issues
  | .other_active_issues => c.other_active_issues
  | .new_open_prs => c.new_open_prs
  | .merged_prs => c.merged_prs
  | .closed_prs => c.closed_prs
  | .other_active_prs => c.other_active_prs

/-- Whether a bucket is one of the four pull-request buckets. -/
def isPrBucket : BucketId → Bool
  | .new_open_prs => true
  | .merged_prs => true
  | .closed_prs => true
  | .other_active_prs => true
  | _ => false

/-- The bucket the `if`/`elif` chain selects for an item — same decision
tree as `categorizeItem`, returning the bucket's name instead of appending. -/
def categorize (start stop : Int) (item : Item) : BucketId :=
  let new_in_range := in_report_range start stop item.created_at
  let closed_in_range :=
    in_report_range start stop item.closed_at && (item.state == "closed")
  let is_pr := item.is_pr
  let is_merged_pr := if is_pr then item.merged_at.isSome else false
  if is_pr then
    if closed_in_range then
      if is_merged_pr then .merged_prs else .closed_prs
    else if new_in_range then .new_open_prs
    else .other_active_prs
  else
    if closed_in_range then .closed_issues
    else if new_in_range then .new_open_issues
    else .other_active_issues

/-- Append an item to the named bucket. -/
def appendTo (b : BucketId) (item : Item) (c : Categories) : Categories :=
  match b with
  | .new_open_issues => { c with new_open_issues := c.new_open_issues ++ [item] }
  | .closed_issues => { c with closed_issues := c.closed_issues ++ [item] }
  | .other_active_issues =>
      { c with other_active_issues := c.other_active_issues ++ [item] }
  | .new_open_prs => { c with new_open_prs := c.new_open_prs ++ [item] }
  | .merged_prs => { c with merged_prs := c.merged_prs ++ [item] }
  | .closed_prs => { c with closed_prs := c.closed_prs ++ [item] }
  | .other_active_prs =>
      { c with other_active_prs := c.other_active_prs ++ [item] }

/-- The script's `conversation_len`: comments, plus review comments when the
item is a pull request. -/
def conversation_len (item : Item) : Nat :=
  item.comments + (if item.is_pr then item.review_comments else 0)

/-- Insert an element into an already-built list so that it lands after every
element whose key is less than or equal to its own — the insertion step of a
stable ascending sort by the key `k`. -/
def stableInsert (k : Item → Nat) (x : Item) : List Item → List Item
  | [] => [x]
  | y :: ys => if k x < k y then x :: y :: ys else y :: stableInsert k x ys

/-- Stable ascending sort by the key `k`, modelling Python's stable
`sorted(items, key=k)`: elements are inserted left to right, and an element
never moves past one with an equal key that came earlier. -/
def sortedBy (k : Item → Nat) (l : List Item) : List Item :=
  l.foldl (fun acc x => stableInsert k x acc) []

/-- The order in which `print_list` prints a bucket (lines 36-37): sort by
`number`, then re-sort the result by `conversation_len`; the second, stable
sort dominates. -/
def displayOrder (items : List Item) : List Item :=
  sortedBy conversation_len (sortedBy (fun x => x.number) items)

/-- Sortedness by key `k` refined with a tie-breaking relation `S` on equal
keys. -/
def keyOrder (k : Item → Nat) (S : Item → Item → Prop) (a b : Item) : Prop :=
  k a < k b ∨ (k a = k b ∧ S a b)

/-- The open-issue delta printed by `main` (line 194):
`len(new_open_issues) - len(closed_issues)`. -/
def total_issue_diff (c : Categories) : Int :=
  (c.new_open_issues.length : Int) - (c.closed_issues.length : Int)

/-- The open-PR delta printed by `main` (lines 195-199):
`len(new_open_prs) - len(merged_prs) - len(closed_prs)`. -/
def total_pr_diff (c : Categories) : Int :=
  (c.new_open_prs.length : Int) - (c.merged_prs.length : Int) -
    (c.closed_prs.length : Int)

/-- The `all_active_prs` property: the four PR buckets combined with
duplicates removed (`list(set(items))`; only the cardinality is used). -/
def all_active_prs (c : Categories) : List Item :=
  (c.new_open_prs ++ c.merged_prs ++ c.closed_prs ++ c.other_active_prs).dedup

/-- The `all_active_issues` property: the three issue buckets combined with
duplicates removed. -/
def all_active_issues (c : Categories) : List Item :=
  (c.new_open_issues ++ c.closed_issues ++ c.other_active_issues).dedup

/-- What one run of `main` computes from the feed (fetching, printing and
authentication aside): the categories and the three summary metrics. -/
structure Report where
  categories : Categories
  total_issue_diff : Int
  total_pr_diff : Int
  total_active : Nat

/-- The report computation of `main` (lines 178-200): categorize the feed,
then derive the summary metrics from the buckets of that same run. -/
def mainReport (start stop : Int) (feed : List Item) : Report :=
  let categories := from_report_range start stop feed
  { categories := categories
    total_issue_diff := total_issue_diff categories
    total_pr_diff := total_pr_diff categories
    total_active :=
      (all_active_prs categories).length + (all_active_issues categories).length }

/-- Comparison of optional timestamps for stating feed sortedness: two
present instants compare as integers, a missing one imposes no constraint. -/
def optLeB : Option Int → Option Int → Bool
  | some a, some b => decide (a ≤ b)
  | _, _ => true

/-- The feed-ordering precondition: consecutive items in non-decreasing
`updated_at` order. -/
def sortedFeed : List Item → Bool
  | [] => true
  | [_] => true
  | x :: y :: rest => optLeB x.updated_at y.updated_at && sortedFeed (y :: rest)

/-- The server-side pre-filter `since=start`: `updated_at` present and at
least `start`. -/
def updated_lb (start : Int) (item : Item) : Bool :=
  match item.updated_at with
  | none => false
  | some u => decide (start ≤ u)

/-- A neutral item all concrete test items are built from. -/
def baseItem : Item :=
  { number := 0, title := "", url := "", state := "open", created_at := none,
    updated_at := none, closed_at := none, merged_at := none, is_pr := false,
    comments := 0, review_comments := 0 }

/-- An issue created and closed inside the window `[0, 10)`. -/
def issue30 : Item :=
  { baseItem with
      number := 30
      state := "closed"
      created_at := some 3
      updated_at := some 4
      closed_at := some 4 }

/-- A merged pull request whose `merged_at = 5` lies inside `[0, 10)` but
whose `closed_at = 15` lies outside it. -/
def prMergedOutside : Item :=
  { baseItem with
      number := 40
      state := "closed"
      is_pr := true
      created_at := some (-5)
      updated_at := some 5
      closed_at := some 15
      merged_at := some 5 }

/-- An item with a missing (`None`) `created_at` timestamp. -/
def malformedItem : Item :=
  { baseItem with
      number := 7
      updated_at := some 5 }

/-- Low issue number but the longer conversation. -/
def itemLowNumber : Item :=
  { baseItem with
      number := 1
      updated_at := some 1
      comments := 5 }

/-- High issue number but the shorter conversation. -/
def itemHighNumber : Item :=
  { baseItem with
      number := 2
      updated_at := some 2
      comments := 3 }

/-- First feed item, inside the window `[0, 10)`. -/
def wA : Item :=
  { baseItem with
      number := 101
      created_at := some 1
      updated_at := some 1 }

/-- Second feed item, `updated_at = 12` at or past the window end `10`. -/
def wB : Item :=
  { baseItem with
      number := 102
      created_at := some 1
      updated_at := some 12 }

/-- Third feed item, deliberately violating the sort order: its
`updated_at = 5` would satisfy the window `[0, 10)`. -/
def wC : Item :=
  { baseItem with
      number := 103
      created_at := some 5
      updated_at := some 5 }

/-- A new issue updated early in the window. -/
def feedItemEarly : Item :=
  { baseItem with
      number := 11
      created_at := some 2
      updated_at := some 2 }

/-- A later feed item updated past the window end. -/
def feedItemLate : Item :=
  { baseItem with
      number := 12
      created_at := some 15
      updated_at := some 20 }

theorem categorizeItem_eq_appendTo (start stop : Int) (item : Item) (c : Categories) :
    categorizeItem start stop item c = appendTo (categorize start stop item) item c := by
  simp only [categorizeItem, categorize]
  by_cases h1 : item.is_pr
  · by_cases h2 :
      (in_report_range start stop item.closed_at && (item.state == "closed")) = true
    · by_cases h3 : item.merged_at.isSome <;> simp [h1, h2, h3, appendTo]
    · by_cases h4 : in_report_range start stop item.created_at = true <;>
        simp [h1, h2, h4, appendTo]
  · by_cases h2 :
      (in_report_range start stop item.closed_at && (item.state == "closed")) = true
    · simp [h1, h2, appendTo]
    · by_cases h4 : in_report_range start stop item.created_at = true <;>
        simp [h1, h2, h4, appendTo]

theorem bucketOf_appendTo (b b' : BucketId) (item : Item) (c : Categories) :
    bucketOf b (appendTo b' item c) =
      if b' = b then bucketOf b c ++ [item] else bucketOf b c := by
  cases b <;> cases b' <;> simp [bucketOf, appendTo]

theorem bucketOf_empty (b : BucketId) : bucketOf b emptyCategories = [] := by
  cases b <;> rfl

theorem processed_cons (start stop : Int) (item : Item) (rest : List Item) :
    processed start stop (item :: rest) =
      if in_report_range start stop item.updated_at then
        item :: processed start stop rest
      else [] := by
  simp [processed, List.takeWhile_cons]

theorem from_report_range_loop_eq_foldl (start stop : Int) (feed : List Item)
    (c : Categories) :
    from_report_range_loop start stop feed c =
      (processed start stop feed).foldl
        (fun acc item => categorizeItem start stop item acc) c := by
  induction feed generalizing c with
  | nil => rfl
  | cons item rest ih =>
    rw [processed_cons]
    simp only [from_report_range_loop]
    by_cases h : in_report_range start stop item.updated_at = true
    · rw [if_pos h, if_pos h, List.foldl_cons]
      exact ih _
    · rw [if_neg h, if_neg h, List.foldl_nil]

theorem mem_bucketOf_foldl (start stop : Int) (l : List Item) (c : Categories)
    (b : BucketId) (x : Item) :
    x ∈ bucketOf b (l.foldl (fun acc item => categorizeItem start stop item acc) c) ↔
      x ∈ bucketOf b c ∨ (x ∈ l ∧ categorize start stop x = b) := by
  induction l generalizing c with
  | nil => simp
  | cons item rest ih =>
    simp only [List.foldl_cons]
    rw [ih, categorizeItem_eq_appendTo, bucketOf_appendTo]
    by_cases h : categorize start stop item = b
    · rw [if_pos h]
      simp only [List.mem_append, List.mem_cons, List.not_mem_nil, or_false]
      constructor
      · rintro ((hc | rfl) | ⟨hr, hcat⟩)
        · exact Or.inl hc
        · exact Or.inr ⟨Or.inl rfl, h⟩
        · exact Or.inr ⟨Or.inr hr, hcat⟩
      · rintro (hc | ⟨rfl | hr, hcat⟩)
        · exact Or.inl (Or.inl hc)
        · exact Or.inl (Or.inr rfl)
        · exact Or.inr ⟨hr, hcat⟩
    · rw [if_neg h]
      simp only [List.mem_cons]
      constructor
      · rintro (hc | ⟨hr, hcat⟩)
        · exact Or.inl hc
        · exact Or.inr ⟨Or.inr hr, hcat⟩
      · rintro (hc | ⟨rfl | hr, hcat⟩)
        · exact Or.inl hc
        · exact absurd hcat h
        · exact Or.inr ⟨hr, hcat⟩

theorem mem_bucketOf_from_report_range (start stop : Int) (feed : List Item)
    (b : BucketId) (x : Item) :
    x ∈ bucketOf b (from_report_range start stop feed) ↔
      x ∈ processed start stop feed ∧ categorize start stop x = b := by
  rw [from_report_range, from_report_range_loop_eq_foldl, mem_bucketOf_foldl,
    bucketOf_empty]
  simp

theorem mem_processed_updated_in_range (start stop : Int) (feed : List Item)
    (x : Item) (hx : x ∈ processed start stop feed) :
    in_report_range start stop x.updated_at = true := by
  induction feed with
  | nil => simp [processed] at hx
  | cons item rest ih =>
    rw [processed_cons] at hx
    by_cases h : in_report_range start stop item.updated_at = true
    · rw [if_pos h] at hx
      rcases List.mem_cons.mp hx with rfl | hx'
      · exact h
      · exact ih hx'
    · rw [if_neg h] at hx
      simp at hx

theorem stableInsert_perm (k : Item → Nat) (x : Item) (l : List Item) :
    (stableInsert k x l).Perm (x :: l) := by
  induction l with
  | nil => exact List.Perm.refl _
  | cons y ys ih =>
    by_cases h : k x < k y
    · rw [stableInsert, if_pos h]
    · rw [stableInsert, if_neg h]
      exact ((ih.cons y).trans (List.Perm.swap x y ys)).symm.symm

theorem sortedBy_perm (k : Item → Nat) (l : List Item) : (sortedBy k l).Perm l := by
  have key : ∀ (l acc : List Item),
      (l.foldl (fun acc x => stableInsert k x acc) acc).Perm (acc ++ l) := by
    intro l
    induction l with
    | nil => intro acc; simp
    | cons x xs ih =>
      intro acc
      have h1 := ih (stableInsert k x acc)
      have h2 : (stableInsert k x acc ++ xs).Perm ((x :: acc) ++ xs) :=
        (stableInsert_perm k x acc).append_right xs
      have h3 : ((x :: acc) ++ xs).Perm (acc ++ x :: xs) := by
        simpa using List.perm_middle.symm
      rw [List.foldl_cons]
      exact h1.trans (h2.trans h3)
  simpa using key l []

theorem mem_stableInsert (k : Item → Nat) (x z : Item) (l : List Item) :
    z ∈ stableInsert k x l ↔ z = x ∨ z ∈ l := by
  rw [(stableInsert_perm k x l).mem_iff, List.mem_cons]

theorem pairwise_stableInsert (k : Item → Nat) (S : Item → Item → Prop)
    (x : Item) (l : List Item) (hl : l.Pairwise (keyOrder k S))
    (hx : ∀ y ∈ l, k y = k x → S y x) :
    (stableInsert k x l).Pairwise (keyOrder k S) := by
  induction l with
  | nil => exact List.pairwise_singleton _ _
  | cons y ys ih =>
    rcases List.pairwise_cons.mp hl with ⟨hy, hys⟩
    by_cases h : k x < k y
    · rw [stableInsert, if_pos h]
      refine List.pairwise_cons.mpr ⟨?_, hl⟩
      intro z hz
      rcases List.mem_cons.mp hz with rfl | hz'
      · exact Or.inl h
      · rcases hy z hz' with hlt | ⟨heq, _⟩
        · exact Or.inl (h.trans hlt)
        · exact Or.inl (heq ▸ h)
    · rw [stableInsert, if_neg h]
      refine List.pairwise_cons.mpr ⟨?_, ?_⟩
      · intro z hz
        rcases (mem_stableInsert k x z ys).mp hz with rfl | hz'
        · rcases Nat.lt_or_ge (k y) (k z) with hlt | hge
          · exact Or.inl hlt
          · have heq : k y = k z := Nat.le_antisymm (Nat.le_of_not_lt h) hge
            exact Or.inr ⟨heq, hx y (List.mem_cons_self y ys) heq⟩
        · exact hy z hz'
      · exact ih hys (fun z hz => hx z (List.mem_cons_of_mem y hz))

theorem pairwise_sortedBy (k : Item → Nat) (S : Item → Item → Prop)
    (l : List Item) (hl : l.Pairwise (fun a b => k a = k b → S a b)) :
    (sortedBy k l).Pairwise (keyOrder k S) := by
  have key : ∀ (l acc : List Item), acc.Pairwise (keyOrder k S) →
      (∀ y ∈ acc, ∀ x ∈ l, k y = k x → S y x) →
      l.Pairwise (fun a b => k a = k b → S a b) →
      (l.foldl (fun acc x => stableInsert k x acc) acc).Pairwise (keyOrder k S) := by
    intro l
    induction l with
    | nil => intro acc hacc _ _; exact hacc
    | cons x xs ih =>
      intro acc hacc hcross hl
      rcases List.pairwise_cons.mp hl with ⟨hx, hxs⟩
      rw [List.foldl_cons]
      refine ih (stableInsert k x acc) ?_ ?_ hxs
      · exact pairwise_stableInsert k S x acc hacc
          (fun y hy => hcross y hy x (List.mem_cons_self x xs))
      · intro y hy z hz
        rcases (mem_stableInsert k x y acc).mp hy with rfl | hy'
        · exact hx z hz
        · exact hcross y hy' z (List.mem_cons_of_mem x hz)
  exact key l [] List.Pairwise.nil (by simp) hl

theorem in_report_range_eq_true_iff (start stop : Int) (o : Option Int) :
    in_report_range start stop o = true ↔
      ∃ d, o = some d ∧ start ≤ d ∧ d < stop := by
  cases o with
  | none => simp [in_report_range]
  | some d => simp [in_report_range]

theorem closed_in_range_iff (start stop : Int) (x : Item) :
    (in_report_range start stop x.closed_at && (x.state == "closed")) = true ↔
      (∃ cl, x.closed_at = some cl ∧ start ≤ cl ∧ cl < stop) ∧
        x.state = "closed" := by
  rw [Bool.and_eq_true, in_report_range_eq_true_iff]
  simp [beq_iff_eq]

theorem in_report_range_of_invalid (start stop : Int) (h : stop ≤ start)
    (o : Option Int) : in_report_range start stop o = false := by
  cases o with
  | none => rfl
  | some d =>
    simp only [in_report_range, decide_eq_false_iff_not]
    intro hc
    omega

theorem sortedFeed_head_le (y : Item) (rest : List Item) (x : Item)
    (hs : sortedFeed (y :: rest) = true)
    (hnn : ∀ it ∈ y :: rest, (it.updated_at).isSome = true)
    (hx : x ∈ rest) :
    optLeB y.updated_at x.updated_at = true := by
  induction rest generalizing y with
  | nil => simp at hx
  | cons z rs ih =>
    simp only [sortedFeed, Bool.and_eq_true] at hs
    obtain ⟨hyz, hrest⟩ := hs
    rcases List.mem_cons.mp hx with rfl | hx'
    · exact hyz
    · have hzx := ih z hrest
        (fun it hit => hnn it (List.mem_cons_of_mem y hit)) hx'
      obtain ⟨uy, huy⟩ := Option.isSome_iff_exists.mp
        (hnn y (List.mem_cons_self y (z :: rs)))
      obtain ⟨uz, huz⟩ := Option.isSome_iff_exists.mp
        (hnn z (List.mem_cons_of_mem y (List.mem_cons_self z rs)))
      obtain ⟨ux, hux⟩ := Option.isSome_iff_exists.mp
        (hnn x (List.mem_cons_of_mem y (List.mem_cons_of_mem z hx')))
      rw [huy, huz] at hyz
      rw [huz, hux] at hzx
      rw [huy, hux]
      simp only [optLeB, decide_eq_true_eq] at hyz hzx ⊢
      omega

theorem mem_processed_of_sorted (start stop : Int) :
    ∀ feed : List Item,
      (∀ it ∈ feed, updated_lb start it = true) →
      sortedFeed feed = true →
      ∀ x ∈ feed, in_report_range start stop x.updated_at = true →
      x ∈ processed start stop feed := by
  intro feed
  induction feed with
  | nil =>
    intro _ _ x hx
    simp at hx
  | cons y rest ih =>
    intro hall hs x hx hin
    rcases List.mem_cons.mp hx with rfl | hx'
    · rw [processed_cons, if_pos hin]
      exact List.mem_cons_self x _
    · obtain ⟨ux, hux, hx1, hx2⟩ :=
        (in_report_range_eq_true_iff start stop x.updated_at).mp hin
      have hnn : ∀ it ∈ y :: rest, (it.updated_at).isSome = true := by
        intro it hit
        have hlb := hall it hit
        cases h : it.updated_at with
        | none => rw [updated_lb, h] at hlb; exact absurd hlb (by simp)
        | some u => simp [h]
      obtain ⟨uy, huy⟩ := Option.isSome_iff_exists.mp
        (hnn y (List.mem_cons_self y rest))
      have hylb := hall y (List.mem_cons_self y rest)
      rw [updated_lb, huy] at hylb
      have hyle := sortedFeed_head_le y rest x hs hnn hx'
      rw [huy, hux] at hyle
      simp only [optLeB, decide_eq_true_eq] at hyle hylb
      have hyin : in_report_range start stop y.updated_at = true := by
        rw [huy]
        simp only [in_report_range, decide_eq_true_eq]
        exact ⟨hylb, lt_of_le_of_lt hyle hx2⟩
      rw [processed_cons, if_pos hyin]
      refine List.mem_cons_of_mem y (ih ?_ ?_ x hx' hin)
      · intro it hit
        exact hall it (List.mem_cons_of_mem y hit)
      · cases rest with
        | nil => rfl
        | cons z rs =>
          simp only [sortedFeed, Bool.and_eq_true] at hs
          exact hs.2

theorem isPrBucket_categorize (start stop : Int) (x : Item) :
    isPrBucket (categorize start stop x) = x.is_pr := by
  simp only [categorize]
  by_cases h1 : x.is_pr
  · by_cases h2 :
      (in_report_range start stop x.closed_at && (x.state == "closed")) = true
    · by_cases h3 : x.merged_at.isSome <;> simp [h1, h2, h3, isPrBucket]
    · by_cases h4 : in_report_range start stop x.created_at = true <;>
        simp [h1, h2, h4, isPrBucket]
  · by_cases h2 :
      (in_report_range start stop x.closed_at && (x.state == "closed")) = true
    · simp [h1, h2, isPrBucket]
    · by_cases h4 : in_report_range start stop x.created_at = true <;>
        simp [h1, h2, h4, isPrBucket]

theorem pairwise_eq_imp_true (l : List Item) (k : Item → Nat) :
    l.Pairwise (fun a b => k a = k b → True) := by
  induction l with
  | nil => exact List.Pairwise.nil
  | cons x xs ih => exact List.pairwise_cons.mpr ⟨fun y _ _ => trivial, ih⟩

theorem consumedCount_le (start stop : Int) :
    ∀ (feed : List Item) (i : Nat) (hi : i < feed.length),
      ¬ in_report_range start stop ((feed.get ⟨i, hi⟩).updated_at) = true →
      consumedCount start stop feed ≤ i + 1 := by
  intro feed
  induction feed with
  | nil =>
    intro i hi
    simp at hi
  | cons item rest ih =>
    intro i hi hng
    cases i with
    | zero =>
      have hng' : ¬ in_report_range start stop item.updated_at = true := hng
      rw [consumedCount, if_neg hng']
    | succ j =>
      by_cases h : in_report_range start stop item.updated_at = true
      · rw [consumedCount, if_pos h]
        exact Nat.succ_le_succ (ih j (Nat.lt_of_succ_lt_succ hi) hng)
      · rw [consumedCount, if_neg h]
        exact Nat.le_add_left 1 (j + 1)

theorem from_report_range_loop_take (start stop : Int) :
    ∀ (feed : List Item) (i : Nat) (hi : i < feed.length),
      ¬ in_report_range start stop ((feed.get ⟨i, hi⟩).updated_at) = true →
      ∀ c, from_report_range_loop start stop feed c =
        from_report_range_loop start stop (feed.take i) c := by
  intro feed
  induction feed with
  | nil =>
    intro i hi
    simp at hi
  | cons item rest ih =>
    intro i hi hng c
    cases i with
    | zero =>
      have hng' : ¬ in_report_range start stop item.updated_at = true := hng
      rw [List.take_zero]
      simp only [from_report_range_loop]
      rw [if_neg hng']
    | succ j =>
      rw [List.take_succ_cons]
      simp only [from_report_range_loop]
      by_cases h : in_report_range start stop item.updated_at = true
      · rw [if_pos h, if_pos h]
        exact ih j (Nat.lt_of_succ_lt_succ hi) hng _
      · rw [if_neg h, if_neg h]

theorem categorize_eq_merged_iff (start stop : Int) (x : Item) :
    categorize start stop x = BucketId.merged_prs ↔
      x.is_pr = true ∧
        (∃ cl, x.closed_at = some cl ∧ start ≤ cl ∧ cl < stop) ∧
        x.state = "closed" ∧ x.merged_at.isSome = true := by
  constructor
  · intro hcat
    by_cases h1 : x.is_pr
    · by_cases h2 :
        (in_report_range start stop x.closed_at && (x.state == "closed")) = true
      · by_cases h3 : x.merged_at.isSome = true
        · obtain ⟨hcl, hstate⟩ := (closed_in_range_iff start stop x).mp h2
          exact ⟨h1, hcl, hstate, h3⟩
        · simp [categorize, h1, h2, h3] at hcat
      · by_cases h4 : in_report_range start stop x.created_at = true
        · simp [categorize, h1, h2, h4] at hcat
        · simp [categorize, h1, h2, h4] at hcat
    · by_cases h2 :
        (in_report_range start stop x.closed_at && (x.state == "closed")) = true
      · simp [categorize, h1, h2] at hcat
      · by_cases h4 : in_report_range start stop x.created_at = true
        · simp [categorize, h1, h2, h4] at hcat
        · simp [categorize, h1, h2, h4] at hcat
  · rintro ⟨h1, hcl, hstate, hm⟩
    have h2 := (closed_in_range_iff start stop x).mpr ⟨hcl, hstate⟩
    simp [categorize, h1, h2, hm]

theorem categorize_created_none (start stop : Int) (x : Item)
    (hnull : x.created_at = none) :
    categorize start stop x ≠ BucketId.new_open_issues ∧
      categorize start stop x ≠ BucketId.new_open_prs := by
  have hnew : in_report_range start stop x.created_at = false := by
    rw [hnull]
    rfl
  by_cases h1 : x.is_pr
  · by_cases h2 :
      (in_report_range start stop x.closed_at && (x.state == "closed")) = true
    · by_cases h3 : x.merged_at.isSome = true <;>
        constructor <;> simp [categorize, h1, h2, h3, hnew]
    · constructor <;> simp [categorize, h1, h2, hnew]
  · by_cases h2 :
      (in_report_range start stop x.closed_at && (x.state == "closed")) = true
    · constructor <;> simp [categorize, h1, h2, hnew]
    · constructor <;> simp [categorize, h1, h2, hnew]

/-- Claim C1: for every feed and window, if the item at index `i` has
`updated_at ≥ stop`, the loop pulls at most `i + 1` items from the feed and
the returned buckets are exactly those computed from the first `i` items —
no later item (even one that would satisfy the window) is consumed or
placed in any bucket, and the breaking item itself is not bucketed. -/
theorem c1_early_termination (start stop : Int) (feed : List Item) (i : Nat)
    (hi : i < feed.length)
    (hu : ∃ u, (feed.get ⟨i, hi⟩).updated_at = some u ∧ stop ≤ u) :
    consumedCount start stop feed ≤ i + 1 ∧
      from_report_range start stop feed =
        from_report_range start stop (feed.take i) := by
  obtain ⟨u, hsome, hge⟩ := hu
  have hng : ¬ in_report_range start stop ((feed.get ⟨i, hi⟩).updated_at) = true := by
    rw [hsome]
    simp only [in_report_range, decide_eq_true_eq, not_and, not_lt]
    intro _
    exact hge
  exact ⟨consumedCount_le start stop feed i hi hng,
    from_report_range_loop_take start stop feed i hi hng emptyCategories⟩

/-- Witness for C1 at a concrete feed: `wB` (index 1) has `updated_at = 12 ≥ 10`,
so at most two items are pulled and the result ignores `wB` and the
out-of-order in-window item `wC` entirely. -/
theorem c1_early_termination_witness :
    consumedCount 0 10 [wA, wB, wC] ≤ 2 ∧
      from_report_range 0 10 [wA, wB, wC] =
        from_report_range 0 10 ([wA, wB, wC].take 1) :=
  c1_early_termination 0 10 [wA, wB, wC] 1 (by decide) ⟨12, by decide, by decide⟩

/-- Claim C2, counterexample: `issue30` is created (3) and closed (4) inside
the window `[0, 10)` with state closed, yet it lands only in
`closed_issues` — it is not also placed in `new_open_issues`, contradicting
the claimed double tagging. -/
theorem c2_counterexample :
    issue30.created_at = some 3 ∧ issue30.closed_at = some 4 ∧
      issue30.state = "closed" ∧
      issue30 ∈ (from_report_range 0 10 [issue30]).closed_issues ∧
      issue30 ∉ (from_report_range 0 10 [issue30]).new_open_issues := by
  decide

/-- Claim C2 as amended: an issue created and closed inside the window with
state closed is placed in the closed-issues bucket only; the `if`/`elif`
chain gives `closed_in_range` priority, so the item is not also tagged new. -/
theorem c2_amended (start stop : Int) (feed : List Item) (x : Item)
    (hp : x ∈ processed start stop feed)
    (hpr : x.is_pr = false)
    (hstate : x.state = "closed")
    (hclosed : ∃ cl, x.closed_at = some cl ∧ start ≤ cl ∧ cl < stop)
    (hcreated : ∃ cr, x.created_at = some cr ∧ start ≤ cr ∧ cr < stop) :
    x ∈ (from_report_range start stop feed).closed_issues ∧
      x ∉ (from_report_range start stop feed).new_open_issues := by
  have hc := (closed_in_range_iff start stop x).mpr ⟨hclosed, hstate⟩
  have hcat : categorize start stop x = BucketId.closed_issues := by
    simp [categorize, hpr, hc]
  constructor
  · exact (mem_bucketOf_from_report_range start stop feed
      BucketId.closed_issues x).mpr ⟨hp, hcat⟩
  · intro hmem
    have he := ((mem_bucketOf_from_report_range start stop feed
      BucketId.new_open_issues x).mp hmem).2
    rw [hcat] at he
    exact absurd he (by decide)

/-- Witness for the amended C2 at the concrete issue `issue30`. -/
theorem c2_amended_witness :
    issue30 ∈ (from_report_range 0 10 [issue30]).closed_issues ∧
      issue30 ∉ (from_report_range 0 10 [issue30]).new_open_issues :=
  c2_amended 0 10 [issue30] issue30 (by decide) (by decide) (by decide)
    ⟨4, by decide⟩ ⟨3, by decide⟩

/-- Claim C3, counterexample: `prMergedOutside` is merged with
`merged_at = 5` inside `[0, 10)`, yet it is absent from `merged_prs`
because its `closed_at = 15` is outside the window — the code gates the
merged bucket on `closed_in_range`, not on `merged_at`. -/
theorem c3_counterexample :
    prMergedOutside.merged_at = some 5 ∧ (0 : Int) ≤ 5 ∧ (5 : Int) < 10 ∧
      prMergedOutside ∉ (from_report_range 0 10 [prMergedOutside]).merged_prs ∧
      prMergedOutside ∈
        (from_report_range 0 10 [prMergedOutside]).other_active_prs := by
  decide

/-- Claim C3 as amended: a consumed item is tagged `merged_prs` exactly when
it is a pull request whose `closed_at` is non-null and inside the window,
whose state is closed, and whose `merged_at` is non-null — the window test
is applied to `closed_at`, never to `merged_at`. -/
theorem c3_amended (start stop : Int) (feed : List Item) (x : Item) :
    x ∈ (from_report_range start stop feed).merged_prs ↔
      x ∈ processed start stop feed ∧ x.is_pr = true ∧
        (∃ cl, x.closed_at = some cl ∧ start ≤ cl ∧ cl < stop) ∧
        x.state = "closed" ∧ x.merged_at.isSome = true := by
  have h := mem_bucketOf_from_report_range start stop feed BucketId.merged_prs x
  rw [show bucketOf BucketId.merged_prs (from_report_range start stop feed) =
      (from_report_range start stop feed).merged_prs from rfl] at h
  rw [h, categorize_eq_merged_iff]

/-- Claim C4: for a feed sorted ascending by `updated_at` whose items all
carry `updated_at ≥ start`, every item with `updated_at` in `[start, stop)`
lands in at least one bucket matching its type (a PR bucket for pull
requests, an issue bucket otherwise). -/
theorem c4_coverage (start stop : Int) (feed : List Item)
    (hall : ∀ it ∈ feed, updated_lb start it = true)
    (hs : sortedFeed feed = true)
    (x : Item) (hx : x ∈ feed)
    (hin : in_report_range start stop x.updated_at = true) :
    ∃ b, x ∈ bucketOf b (from_report_range start stop feed) ∧
      isPrBucket b = x.is_pr := by
  have hp := mem_processed_of_sorted start stop feed hall hs x hx hin
  exact ⟨categorize start stop x,
    (mem_bucketOf_from_report_range start stop feed _ x).mpr ⟨hp, rfl⟩,
    isPrBucket_categorize start stop x⟩

/-- Witness for C4 at a concrete sorted feed: the in-window issue
`feedItemEarly` appears in an issue bucket. -/
theorem c4_coverage_witness :
    ∃ b, feedItemEarly ∈
        bucketOf b (from_report_range 0 10 [feedItemEarly, feedItemLate]) ∧
      isPrBucket b = feedItemEarly.is_pr :=
  c4_coverage 0 10 [feedItemEarly, feedItemLate] (by decide) (by decide)
    feedItemEarly (by decide) (by decide)

/-- Claim C5, counterexample: a feed containing an item with
`created_at = None` does not abort — `from_report_range` returns buckets and
the malformed item is silently categorized into `other_active_issues`. -/
theorem c5_counterexample :
    malformedItem.created_at = none ∧
      malformedItem ∈
        (from_report_range 0 10 [malformedItem]).other_active_issues := by
  decide

/-- Claim C5 as amended: the run never aborts on a missing `created_at`;
a consumed item with `created_at = None` is silently placed in some bucket,
and that bucket is never one of the two new-items buckets, because
`in_report_range(None)` is false. -/
theorem c5_amended (start stop : Int) (feed : List Item) (x : Item)
    (hp : x ∈ processed start stop feed) (hnull : x.created_at = none) :
    (∃ b, x ∈ bucketOf b (from_report_range start stop feed)) ∧
      x ∉ (from_report_range start stop feed).new_open_issues ∧
      x ∉ (from_report_range start stop feed).new_open_prs := by
  obtain ⟨hni, hnp⟩ := categorize_created_none start stop x hnull
  refine ⟨⟨categorize start stop x,
    (mem_bucketOf_from_report_range start stop feed _ x).mpr ⟨hp, rfl⟩⟩, ?_, ?_⟩
  · intro hmem
    exact hni ((mem_bucketOf_from_report_range start stop feed
      BucketId.new_open_issues x).mp hmem).2
  · intro hmem
    exact hnp ((mem_bucketOf_from_report_range start stop feed
      BucketId.new_open_prs x).mp hmem).2

/-- Witness for the amended C5 at the concrete malformed item. -/
theorem c5_amended_witness :
    (∃ b, malformedItem ∈ bucketOf b (from_report_range 0 10 [malformedItem])) ∧
      malformedItem ∉ (from_report_range 0 10 [malformedItem]).new_open_issues ∧
      malformedItem ∉ (from_report_range 0 10 [malformedItem]).new_open_prs :=
  c5_amended 0 10 [malformedItem] malformedItem (by decide) (by decide)

/-- Claim C6, counterexample: with `after = 5 ≥ before = 3` the categorizer
does not fail — it silently returns a `Categories` value with all seven
buckets empty. -/
theorem c6_counterexample :
    from_report_range 5 3 [issue30] = emptyCategories := by
  decide

/-- Claim C6 as amended: for `after ≥ before` the categorizer raises no
error and returns the empty `Categories`: no timestamp can lie inside the
empty window, so the very first item fails the `updated_at` check and the
loop stops with every bucket empty. -/
theorem c6_amended (start stop : Int) (feed : List Item) (h : stop ≤ start) :
    from_report_range start stop feed = emptyCategories := by
  cases feed with
  | nil => rfl
  | cons item rest =>
    have hng : ¬ in_report_range start stop item.updated_at = true := by
      rw [in_report_range_of_invalid start stop h]
      simp
    rw [from_report_range]
    simp only [from_report_range_loop]
    rw [if_neg hng]

/-- Witness for the amended C6 at a concrete inverted window. -/
theorem c6_amended_witness :
    from_report_range 7 2 [issue30, malformedItem] = emptyCategories :=
  c6_amended 7 2 [issue30, malformedItem] (by decide)

/-- Claim C7: in every generated report, the open-PR delta equals
`count(new_open_prs) - count(merged_prs) - count(closed_prs)` and the
open-issue delta equals `count(new_open_issues) - count(closed_issues)`,
both computed from the bucket sizes of that same run. -/
theorem c7_delta_arithmetic (start stop : Int) (feed : List Item) :
    (mainReport start stop feed).total_pr_diff =
        ((mainReport start stop feed).categories.new_open_prs.length : Int) -
          ((mainReport start stop feed).categories.merged_prs.length : Int) -
          ((mainReport start stop feed).categories.closed_prs.length : Int) ∧
      (mainReport start stop feed).total_issue_diff =
        ((mainReport start stop feed).categories.new_open_issues.length : Int) -
          ((mainReport start stop feed).categories.closed_issues.length : Int) :=
  ⟨rfl, rfl⟩

/-- Claim C8, counterexample: item #1 has the longer conversation (5 vs 3
comments), so `print_list` displays #2 before #1 — the displayed order is
not ascending by `number`. -/
theorem c8_counterexample :
    conversation_len itemLowNumber = 5 ∧ conversation_len itemHighNumber = 3 ∧
      (displayOrder [itemLowNumber, itemHighNumber]).map Item.number = [2, 1] := by
  decide

/-- Claim C8 as amended: `print_list` displays each bucket as a permutation
of its items sorted ascending by conversation length, with ties broken
ascending by `number` — the second, stable sort by `conversation_len`
dominates the first sort by `number`. -/
theorem c8_amended (items : List Item) :
    (displayOrder items).Perm items ∧
      (displayOrder items).Pairwise (fun a b =>
        conversation_len a < conversation_len b ∨
          (conversation_len a = conversation_len b ∧ a.number ≤ b.number)) := by
  constructor
  · exact (sortedBy_perm conversation_len _).trans
      (sortedBy_perm (fun x => x.number) items)
  · have h1 : (sortedBy (fun x => x.number) items).Pairwise
        (keyOrder (fun x => x.number) (fun _ _ => True)) :=
      pairwise_sortedBy _ _ items (pairwise_eq_imp_true items _)
    have h2 : (sortedBy (fun x => x.number) items).Pairwise
        (fun a b => conversation_len a = conversation_len b →
          a.number ≤ b.number) := by
      refine h1.imp ?_
      intro a b hab _
      rcases hab with hlt | ⟨heq, _⟩
      · exact Nat.le_of_lt hlt
      · exact Nat.le_of_eq heq
    have h3 := pairwise_sortedBy conversation_len
      (fun a b => a.number ≤ b.number) _ h2
    exact h3.imp (fun hab => hab)

/-- Claim C9: every item the loop consumes and categorizes lands in at least
one bucket, and no item value appears in two distinct buckets — the seven
buckets of one run are pairwise disjoint. -/
theorem c9_exclusive_buckets (start stop : Int) (feed : List Item) :
    (∀ x, x ∈ processed start stop feed →
        ∃ b, x ∈ bucketOf b (from_report_range start stop feed)) ∧
      ∀ x b1 b2, x ∈ bucketOf b1 (from_report_range start stop feed) →
        x ∈ bucketOf b2 (from_report_range start stop feed) → b1 = b2 := by
  constructor
  · intro x hx
    exact ⟨categorize start stop x,
      (mem_bucketOf_from_report_range start stop feed _ x).mpr ⟨hx, rfl⟩⟩
  · intro x b1 b2 h1 h2
    have e1 := ((mem_bucketOf_from_report_range start stop feed b1 x).mp h1).2
    have e2 := ((mem_bucketOf_from_report_range start stop feed b2 x).mp h2).2
    rw [← e1, ← e2]

/-- Witness for C9: the consumed issue `issue30` lands in a bucket. -/
theorem c9_exclusive_buckets_witness :
    ∃ b, issue30 ∈ bucketOf b (from_report_range 0 10 [issue30]) :=
  (c9_exclusive_buckets 0 10 [issue30]).1 issue30 (by decide)

/-- Claim C10: for any feed (sorted or not) and any window, every item found
in any bucket of the result has a non-null `updated_at` inside
`[start, stop)`. -/
theorem c10_window_membership (start stop : Int) (feed : List Item)
    (b : BucketId) (x : Item)
    (hx : x ∈ bucketOf b (from_report_range start stop feed)) :
    ∃ u, x.updated_at = some u ∧ start ≤ u ∧ u < stop := by
  have h := (mem_bucketOf_from_report_range start stop feed b x).mp hx
  have hin := mem_processed_updated_in_range start stop feed x h.1
  exact (in_report_range_eq_true_iff start stop x.updated_at).mp hin

/-- Witness for C10 at the concrete issue `issue30` in `closed_issues`. -/
theorem c10_window_membership_witness :
    ∃ u, issue30.updated_at = some u ∧ (0 : Int) ≤ u ∧ u < 10 :=
  c10_window_membership 0 10 [issue30] BucketId.closed_issues issue30 (by decide)
